import Mathlib

/-!
Shallow embedding of the race-car corner-weight application (`src/app.py`)
and verification of the specified properties of its metrics engine and
record-store operations.

Numeric values are modelled as rationals.  Python's `round(x, n)` builtin
(round half to even, to `n` decimal places) is modelled by `pyRound`.
-/

namespace RaceApp

/-- Round half to even of a rational to the nearest integer, the tie-breaking
rule used by Python's `round` builtin. -/
def rhe (q : ℚ) : ℤ :=
  let f : ℤ := ⌊q⌋
  let r : ℚ := q - f
  if r < 1/2 then f
  else if 1/2 < r then f + 1
  else if f % 2 = 0 then f else f + 1

/-- `pyRound n q` models Python's `round(q, n)`: round to `n` decimal places,
half to even. -/
def pyRound (n : ℕ) (q : ℚ) : ℚ := (rhe (q * 10 ^ n) : ℚ) / 10 ^ n

/-- A raw form field as received by the web layer: a string parsing to a
number, an empty/missing field (falsy in Python), or a non-numeric string. -/
inductive FormVal where
  | num (q : ℚ)
  | empty
  | garbled
deriving DecidableEq

/-- `safe_float` from `src/app.py` lines 101-103:
`try: return float(val) if val else 0.0 / except: return 0.0`.
An empty (falsy) field gives `0.0`; a field that fails to parse gives `0.0`;
a numeric field gives its parsed value (negative values included). -/
def safe_float : FormVal → ℚ
  | FormVal.num q => q
  | FormVal.empty => 0
  | FormVal.garbled => 0

/-- `FUEL_DENSITY = 6.2` from `src/app.py` line 19. -/
def FUEL_DENSITY : ℚ := 31 / 5

/-- One row of the `setups` table (the `data` dict built in `submit`,
`src/app.py` lines 234-249).  `date` is modelled as an integer timestamp:
the stored `"%Y-%m-%d %H:%M"` strings compare lexicographically in
chronological order, so only their total order matters.  `scale_num` is the
parsed integer sequence number and `is_baseline` the parsed `"Yes"/"No"`
flag.  Numeric columns are stored as TEXT in SQLite and re-parsed with
`safe_float` on read, which round-trips a numeric value unchanged, so the
model keeps them as rationals. -/
structure SetupRecord where
  date : ℤ
  car_num : String
  scale_num : ℤ
  created_by : String
  lf : ℚ
  rf : ℚ
  lr : ℚ
  rr : ℚ
  t_lf : ℚ
  t_rf : ℚ
  t_lr : ℚ
  t_rr : ℚ
  p_lf : ℚ
  p_rf : ℚ
  p_lr : ℚ
  p_rr : ℚ
  total : ℚ
  cross_pct : ℚ
  left_pct : ℚ
  rear_pct : ℚ
  fuel_lbs : ℚ
  adjustment_notes : String
  sway_bar : String
  wt_per_turn : ℚ
  fuel_sensitivity : ℚ
  is_baseline : Bool
deriving DecidableEq

/-- The raw form fields read by `submit` (`src/app.py` lines 204-211 and
236-248) and by `update` (lines 270-280).  `car_num` and `scale_num` are the
identity fields; all measured quantities arrive as raw form values. -/
structure SubmitForm where
  car_num : String
  scale_num : ℤ
  lf : FormVal
  rf : FormVal
  lr : FormVal
  rr : FormVal
  t_lf : FormVal
  t_rf : FormVal
  t_lr : FormVal
  t_rr : FormVal
  p_lf : FormVal
  p_rf : FormVal
  p_lr : FormVal
  p_rr : FormVal
  fuel_input : FormVal
  fuel_unit : String
  adjustment_notes : String
  sway_bar : String
  is_baseline : Bool
deriving DecidableEq

/-- `total = lf + rf + lr + rr` over the parsed corner weights
(`src/app.py` line 212). -/
def cornerTotal (form : SubmitForm) : ℚ :=
  safe_float form.lf + safe_float form.rf + safe_float form.lr + safe_float form.rr

/-- `fuel_lbs = get_f('fuel_input') * (FUEL_DENSITY if fuel_unit == 'gal'
else 1)` (`src/app.py` line 211), before the 1-decimal rounding applied when
the record is stored. -/
def rawFuelLbs (form : SubmitForm) : ℚ :=
  safe_float form.fuel_input * (if form.fuel_unit = "gal" then FUEL_DENSITY else 1)

/-- `net_turns = (t_rf + t_lr) - (t_lf + t_rr)` (`src/app.py` line 222). -/
def netTurns (form : SubmitForm) : ℚ :=
  (safe_float form.t_rf + safe_float form.t_lr) -
    (safe_float form.t_lf + safe_float form.t_rr)

/-- The record built and stored by `submit` (`src/app.py` lines 202-254),
given the capture time `now`, the logged-in `user`, the raw form, and the
car's most recent prior record (`last_run`, or `none` for a first run).
Guards are kept exactly as in the source: `cross_pct` tests `total > 0`
while `left_pct`/`rear_pct`/`current_rear` test Python truthiness of
`total` (`total ≠ 0`). -/
def submitRecord (now : ℤ) (user : String) (form : SubmitForm)
    (last_run : Option SetupRecord) : SetupRecord :=
  let lf := safe_float form.lf
  let rf := safe_float form.rf
  let lr := safe_float form.lr
  let rr := safe_float form.rr
  let total := cornerTotal form
  let fuel_lbs := rawFuelLbs form
  let cross_pct := if 0 < total then pyRound 2 ((rf + lr) / total * 100) else 0
  let wt_per_turn : ℚ :=
    match last_run with
    | none => 0
    | some prev =>
        if netTurns form ≠ 0 then (cross_pct - prev.cross_pct) / netTurns form
        else prev.wt_per_turn
  let fuel_sensitivity : ℚ :=
    match last_run with
    | none => 0
    | some prev =>
        if 1/2 < fuel_lbs ∧ netTurns form = 0 then
          let current_rear := if total ≠ 0 then pyRound 2 ((lr + rr) / total * 100) else 0
          (current_rear - prev.rear_pct) / fuel_lbs
        else prev.fuel_sensitivity
  { date := now
    car_num := form.car_num
    scale_num := form.scale_num
    created_by := user
    lf := lf, rf := rf, lr := lr, rr := rr
    t_lf := safe_float form.t_lf, t_rf := safe_float form.t_rf
    t_lr := safe_float form.t_lr, t_rr := safe_float form.t_rr
    p_lf := safe_float form.p_lf, p_rf := safe_float form.p_rf
    p_lr := safe_float form.p_lr, p_rr := safe_float form.p_rr
    total := pyRound 1 total
    cross_pct := cross_pct
    left_pct := if total ≠ 0 then pyRound 2 ((lf + lr) / total * 100) else 0
    rear_pct := if total ≠ 0 then pyRound 2 ((lr + rr) / total * 100) else 0
    fuel_lbs := pyRound 1 fuel_lbs
    adjustment_notes := form.adjustment_notes
    sway_bar := form.sway_bar
    wt_per_turn := pyRound 4 wt_per_turn
    fuel_sensitivity := pyRound 5 fuel_sensitivity
    is_baseline := form.is_baseline }

/-- The in-place edit performed by `update` (`src/app.py` lines 266-313) on a
record matching the targeted `(car_num, scale_num)`: raw inputs, `total` (not
rounded here, unlike `submit`), the three percentages, `fuel_lbs`, notes,
sway-bar state and the baseline flag are replaced; every other column —
in particular `wt_per_turn`, `fuel_sensitivity`, `date`, `created_by` and the
identity fields — is not mentioned in the UPDATE statement. -/
def applyUpdate (form : SubmitForm) (r : SetupRecord) : SetupRecord :=
  let lf := safe_float form.lf
  let rf := safe_float form.rf
  let lr := safe_float form.lr
  let rr := safe_float form.rr
  let total := cornerTotal form
  { r with
    lf := lf, rf := rf, lr := lr, rr := rr
    t_lf := safe_float form.t_lf, t_rf := safe_float form.t_rf
    t_lr := safe_float form.t_lr, t_rr := safe_float form.t_rr
    p_lf := safe_float form.p_lf, p_rf := safe_float form.p_rf
    p_lr := safe_float form.p_lr, p_rr := safe_float form.p_rr
    total := total
    cross_pct := if 0 < total then pyRound 2 ((rf + lr) / total * 100) else 0
    left_pct := if total ≠ 0 then pyRound 2 ((lf + lr) / total * 100) else 0
    rear_pct := if total ≠ 0 then pyRound 2 ((lr + rr) / total * 100) else 0
    fuel_lbs := pyRound 1 (rawFuelLbs form)
    adjustment_notes := form.adjustment_notes
    sway_bar := form.sway_bar
    is_baseline := form.is_baseline }

/-- The rows of the `setups` table restricted to one car
(`SELECT * FROM setups WHERE car_num = ?`).  The store is the list of rows in
insertion order. -/
def carHistory (store : List SetupRecord) (car : String) : List SetupRecord :=
  store.filter (fun r => r.car_num = car)

/-- The record with the latest `date` in a list: `history[-1]` of the
`ORDER BY date ASC` listing in `index` (`src/app.py` line 174), equally the
single row of `ORDER BY date DESC LIMIT 1` in `submit` (line 216).  Among
equal dates SQLite's order is unspecified; the model keeps the
last-inserted one. -/
def latestOf (a : SetupRecord) (rs : List SetupRecord) : SetupRecord :=
  rs.foldl (fun b r => if b.date ≤ r.date then r else b) a

/-- `latestOf` lifted to a possibly empty history: `none` iff the car has no
records. -/
def lastRunByDate : List SetupRecord → Option SetupRecord
  | [] => none
  | x :: t => some (latestOf x t)

/-- The next sequence number offered by `index` (`src/app.py` line 176):
`int(last_run['scale_num']) + 1 if last_run else 1`, where `last_run` is the
latest record by date for the selected car. -/
def nextNum (store : List SetupRecord) (car : String) : ℤ :=
  match lastRunByDate (carHistory store car) with
  | none => 1
  | some r => r.scale_num + 1

/-- Modelled from the spec: "the next sequence number for a new entry is
`max(sequenceNumber over all existing records for that car) + 1`, or `1` if
none exist" (spec section 4.2).  Comparison target for the behaviour of
`nextNum`. -/
def specNextNum (store : List SetupRecord) (car : String) : ℤ :=
  match carHistory store car with
  | [] => 1
  | r :: rest => rest.foldl (fun m x => max m x.scale_num) r.scale_num + 1

/-- The `INSERT` performed by `submit` (`src/app.py` lines 251-254): the new
record, computed against the car's latest prior record, is appended to the
table.  No uniqueness check is made (the `setups` table is created without
constraints, lines 80-81). -/
def submitOp (now : ℤ) (user : String) (form : SubmitForm)
    (store : List SetupRecord) : List SetupRecord :=
  store ++ [submitRecord now user form (lastRunByDate (carHistory store form.car_num))]

/-- `DELETE FROM setups WHERE car_num = ? AND scale_num = ?`
(`src/app.py` line 262): every row matching the key is removed. -/
def deleteOp (car : String) (scale : ℤ) (store : List SetupRecord) :
    List SetupRecord :=
  store.filter (fun r => ¬(r.car_num = car ∧ r.scale_num = scale))

/-- The `UPDATE ... WHERE car_num=? AND scale_num=?` of `update`
(`src/app.py` lines 290-312): `applyUpdate` is applied in place to every row
matching the key; other rows are untouched. -/
def updateOp (form : SubmitForm) (store : List SetupRecord) : List SetupRecord :=
  store.map (fun r =>
    if r.car_num = form.car_num ∧ r.scale_num = form.scale_num then
      applyUpdate form r
    else r)

/-- The two persistent stores: the SQLite `setups` table (`db`) and the
append-only CSV backup file `race_car_weights.csv` (`csv`), each modelled as
its list of data rows. -/
structure AppState where
  db : List SetupRecord
  csv : List SetupRecord

/-- `submit` route effect on both stores: insert into the table and append
the same row to the backup CSV via `write_backup_csv`
(`src/app.py` lines 253-255, 105-112). -/
def submitState (now : ℤ) (user : String) (form : SubmitForm) (s : AppState) :
    AppState :=
  let row := submitRecord now user form (lastRunByDate (carHistory s.db form.car_num))
  { db := s.db ++ [row], csv := s.csv ++ [row] }

/-- `delete` route effect (`src/app.py` lines 259-264): only the table is
touched; the CSV file is not opened. -/
def deleteState (car : String) (scale : ℤ) (s : AppState) : AppState :=
  { db := deleteOp car scale s.db, csv := s.csv }

/-- `update` route effect (`src/app.py` lines 266-317): only the table is
touched; the source explicitly does not rewrite the CSV
("We do NOT update the CSV to preserve the raw audit trail of the file"). -/
def updateState (form : SubmitForm) (s : AppState) : AppState :=
  { db := updateOp form s.db, csv := s.csv }

/-- `(car_num, scale_num)` is a key: no two rows of the store share it. -/
def uniqueKeys (store : List SetupRecord) : Prop :=
  store.Pairwise (fun a b => a.car_num = b.car_num → a.scale_num ≠ b.scale_num)

/-- `q` is exactly representable with `n` decimal digits, i.e. `q * 10 ^ n`
is an integer.  Every `wt_per_turn` the app stores satisfies `decExact 4`
and every `fuel_sensitivity` satisfies `decExact 5`, by the rounding applied
on insert. -/
def decExact (n : ℕ) (q : ℚ) : Prop := ((⌊q * 10 ^ n⌋ : ℤ) : ℚ) = q * 10 ^ n

/-- A neutral well-formed stored record: car "1", sequence 1, all corners
500 lb, all percentages 50, sensitivities 0. -/
def baseRecord : SetupRecord :=
  { date := 0
    car_num := "1"
    scale_num := 1
    created_by := "Admin"
    lf := 500, rf := 500, lr := 500, rr := 500
    t_lf := 0, t_rf := 0, t_lr := 0, t_rr := 0
    p_lf := 0, p_rf := 0, p_lr := 0, p_rr := 0
    total := 2000
    cross_pct := 50
    left_pct := 50
    rear_pct := 50
    fuel_lbs := 0
    adjustment_notes := ""
    sway_bar := "Disconnected"
    wt_per_turn := 0
    fuel_sensitivity := 0
    is_baseline := false }

/-- A neutral form for car "1", sequence 1: all numeric fields present and
zero, fuel entered in pounds. -/
def baseForm : SubmitForm :=
  { car_num := "1"
    scale_num := 1
    lf := FormVal.num 0, rf := FormVal.num 0
    lr := FormVal.num 0, rr := FormVal.num 0
    t_lf := FormVal.num 0, t_rf := FormVal.num 0
    t_lr := FormVal.num 0, t_rr := FormVal.num 0
    p_lf := FormVal.num 0, p_rf := FormVal.num 0
    p_lr := FormVal.num 0, p_rr := FormVal.num 0
    fuel_input := FormVal.num 0
    fuel_unit := "lbs"
    adjustment_notes := ""
    sway_bar := "Disconnected"
    is_baseline := false }

/-- `baseForm` with all four corner weights 500 lb. -/
def fullForm : SubmitForm :=
  { baseForm with
    lf := FormVal.num 500, rf := FormVal.num 500
    lr := FormVal.num 500, rr := FormVal.num 500 }

/-! ### Facts about the rounding model -/

theorem rhe_intCast (z : ℤ) : rhe (z : ℚ) = z := by
  unfold rhe
  norm_num

theorem floor_le_rhe (q : ℚ) : ⌊q⌋ ≤ rhe q := by
  unfold rhe
  dsimp only
  split
  · exact le_refl _
  · split
    · omega
    · split <;> omega

theorem rhe_le_ceil (q : ℚ) : rhe q ≤ ⌈q⌉ := by
  have hfc : ⌊q⌋ ≤ ⌈q⌉ := Int.floor_le_ceil q
  have key : ¬(q - ⌊q⌋ < 1/2) → ⌊q⌋ + 1 ≤ ⌈q⌉ := by
    intro h
    have h1 : (⌊q⌋ : ℚ) + 1/2 ≤ q := by linarith [not_lt.mp h]
    have h2 : (⌊q⌋ : ℚ) < q := by linarith
    have h3 : (⌊q⌋ : ℚ) < (⌈q⌉ : ℚ) := lt_of_lt_of_le h2 (Int.le_ceil q)
    have h4 : ⌊q⌋ < ⌈q⌉ := by exact_mod_cast h3
    omega
  unfold rhe
  dsimp only
  split
  · exact hfc
  · next h =>
    split
    · exact key h
    · split
      · exact hfc
      · exact key h

/-- Rounding fixes every value already exact at `n` decimal places. -/
theorem pyRound_eq_self {n : ℕ} {q : ℚ} (h : decExact n q) : pyRound n q = q := by
  unfold pyRound
  rw [← h, rhe_intCast, h]
  field_simp

theorem pyRound_zero (n : ℕ) : pyRound n 0 = 0 := by
  apply pyRound_eq_self
  unfold decExact
  norm_num

theorem pyRound_nonneg (n : ℕ) (q : ℚ) (h : 0 ≤ q) : 0 ≤ pyRound n q := by
  unfold pyRound
  apply div_nonneg _ (by positivity)
  have h1 : (0:ℤ) ≤ ⌊q * 10 ^ n⌋ := Int.floor_nonneg.mpr (by positivity)
  have h2 := floor_le_rhe (q * 10 ^ n)
  exact_mod_cast le_trans h1 h2

theorem pyRound_le_intCast (n : ℕ) (q : ℚ) (N : ℤ) (h : q ≤ N) :
    pyRound n q ≤ N := by
  unfold pyRound
  rw [div_le_iff₀ (by positivity)]
  have h1 : rhe (q * 10 ^ n) ≤ ⌈q * 10 ^ n⌉ := rhe_le_ceil _
  have h2 : ⌈q * 10 ^ n⌉ ≤ N * 10 ^ n := by
    have hq : q * 10 ^ n ≤ ((N * 10 ^ n : ℤ) : ℚ) := by
      push_cast
      exact mul_le_mul_of_nonneg_right h (by positivity)
    calc ⌈q * 10 ^ n⌉ ≤ ⌈((N * 10 ^ n : ℤ) : ℚ)⌉ := Int.ceil_le_ceil hq
      _ = N * 10 ^ n := Int.ceil_intCast _
  have h3 : rhe (q * 10 ^ n) ≤ N * 10 ^ n := le_trans h1 h2
  calc ((rhe (q * 10 ^ n) : ℤ) : ℚ) ≤ ((N * 10 ^ n : ℤ) : ℚ) := by exact_mod_cast h3
    _ = (N : ℚ) * 10 ^ n := by push_cast; ring

/-- A share `w` of a positive total `t`, expressed in rounded percent, lies
in `[0, 100]`. -/
theorem pct_bounds (w t : ℚ) (h0 : 0 ≤ w) (ht : 0 < t) (hwt : w ≤ t) :
    0 ≤ pyRound 2 (w / t * 100) ∧ pyRound 2 (w / t * 100) ≤ 100 := by
  have h1 : 0 ≤ w / t * 100 := by positivity
  have h2 : w / t * 100 ≤ 100 := by
    have hd : w / t ≤ 1 := (div_le_one ht).mpr hwt
    nlinarith
  refine ⟨pyRound_nonneg _ _ h1, ?_⟩
  have h3 := pyRound_le_intCast 2 (w / t * 100) 100 (by exact_mod_cast h2)
  exact_mod_cast h3

/-! ### Claim C1 -/

/-- Claim C1: for every submission, with parsed corner weights
`lf, rf, lr, rr` and `total` their sum: if `total > 0` then
`crossPct = round(100*(rf+lr)/total, 2)`,
`leftPct = round(100*(lf+lr)/total, 2)` and
`rearPct = round(100*(lr+rr)/total, 2)`; and if `total = 0` then all three
stored percentages are `0.0`, for any turns and fuel values. -/
theorem claim1_percentages (now : ℤ) (user : String) (form : SubmitForm)
    (prev : Option SetupRecord) :
    (0 < cornerTotal form →
      (submitRecord now user form prev).cross_pct =
        pyRound 2 (100 * (safe_float form.rf + safe_float form.lr) / cornerTotal form) ∧
      (submitRecord now user form prev).left_pct =
        pyRound 2 (100 * (safe_float form.lf + safe_float form.lr) / cornerTotal form) ∧
      (submitRecord now user form prev).rear_pct =
        pyRound 2 (100 * (safe_float form.lr + safe_float form.rr) / cornerTotal form)) ∧
    (cornerTotal form = 0 →
      (submitRecord now user form prev).cross_pct = 0 ∧
      (submitRecord now user form prev).left_pct = 0 ∧
      (submitRecord now user form prev).rear_pct = 0) := by
  constructor
  · intro h
    have hne : cornerTotal form ≠ 0 := ne_of_gt h
    unfold submitRecord
    dsimp only
    rw [if_pos h, if_pos hne, if_pos hne]
    refine ⟨?_, ?_, ?_⟩ <;> · congr 1; ring
  · intro h
    unfold submitRecord
    dsimp only
    simp [h]

/-- Witness for C1 at corners `(500, 500, 500, 500)`: all three stored
percentages are `50`. -/
theorem claim1_witness :
    (submitRecord 0 "Admin" fullForm none).cross_pct = 50 ∧
    (submitRecord 0 "Admin" fullForm none).left_pct = 50 ∧
    (submitRecord 0 "Admin" fullForm none).rear_pct = 50 := by
  have h := (claim1_percentages 0 "Admin" fullForm none).1
    (by norm_num [cornerTotal, fullForm, baseForm, safe_float])
  obtain ⟨h1, h2, h3⟩ := h
  refine ⟨?_, ?_, ?_⟩
  · rw [h1]
    norm_num [cornerTotal, fullForm, baseForm, safe_float, pyRound, rhe]
  · rw [h2]
    norm_num [cornerTotal, fullForm, baseForm, safe_float, pyRound, rhe]
  · rw [h3]
    norm_num [cornerTotal, fullForm, baseForm, safe_float, pyRound, rhe]

/-! ### Claim C2 -/

/-- Corners `(490, 510, 510, 490)` and three turns on the right-front
adjuster: `netTurns = 3` and the new cross percentage is `51`. -/
def turnForm : SubmitForm :=
  { baseForm with
    lf := FormVal.num 490, rf := FormVal.num 510
    lr := FormVal.num 510, rr := FormVal.num 490
    t_rf := FormVal.num 3 }

/-- Counterexample to C2 as stated: with `netTurns = 3` and a cross-weight
change of `1`, the stored `wt_per_turn` is `round(1/3, 4) = 0.3333`, not the
exact quotient `1/3` the claim demands. -/
theorem claim2_counterexample :
    (submitRecord 1 "Admin" turnForm (some baseRecord)).wt_per_turn ≠
      ((submitRecord 1 "Admin" turnForm (some baseRecord)).cross_pct -
        baseRecord.cross_pct) / netTurns turnForm := by
  norm_num [submitRecord, turnForm, baseForm, baseRecord, netTurns, safe_float,
    cornerTotal, rawFuelLbs, FUEL_DENSITY, pyRound, rhe]

/-- Claim C2 (amended): with no previous record the stored `wt_per_turn` is
`0.0`; with a previous record and `netTurns ≠ 0` the stored `wt_per_turn` is
`round((crossPct - previous.crossPct) / netTurns, 4)` (the quotient is
rounded to 4 decimals on storage); with a previous record and
`netTurns = 0` it is `round(previous.wt_per_turn, 4)`, which equals
`previous.wt_per_turn` exactly whenever that value is exact at 4 decimals —
as every `wt_per_turn` the app itself stores is. -/
theorem claim2_weight_per_turn (now : ℤ) (user : String) (form : SubmitForm)
    (prev : SetupRecord) :
    (submitRecord now user form none).wt_per_turn = 0 ∧
    (netTurns form ≠ 0 →
      (submitRecord now user form (some prev)).wt_per_turn =
        pyRound 4 (((submitRecord now user form (some prev)).cross_pct -
          prev.cross_pct) / netTurns form)) ∧
    (netTurns form = 0 →
      (submitRecord now user form (some prev)).wt_per_turn =
        pyRound 4 prev.wt_per_turn) ∧
    (netTurns form = 0 → decExact 4 prev.wt_per_turn →
      (submitRecord now user form (some prev)).wt_per_turn =
        prev.wt_per_turn) := by
  refine ⟨?_, ?_, ?_, ?_⟩
  · unfold submitRecord
    dsimp only
    exact pyRound_zero 4
  · intro h
    unfold submitRecord
    dsimp only
    rw [if_pos h]
  · intro h
    unfold submitRecord
    dsimp only
    rw [if_neg (by simp [h])]
  · intro h hx
    unfold submitRecord
    dsimp only
    rw [if_neg (by simp [h])]
    exact pyRound_eq_self hx

/-- Witness for C2 (amended): at `turnForm` the quotient branch applies, and
at `baseForm` (no turns) the previous `wt_per_turn = 0` is carried forward
exactly. -/
theorem claim2_witness :
    (submitRecord 1 "Admin" turnForm (some baseRecord)).wt_per_turn =
      pyRound 4 (((submitRecord 1 "Admin" turnForm (some baseRecord)).cross_pct -
        baseRecord.cross_pct) / netTurns turnForm) ∧
    (submitRecord 1 "Admin" baseForm (some baseRecord)).wt_per_turn =
      baseRecord.wt_per_turn :=
  ⟨(claim2_weight_per_turn 1 "Admin" turnForm baseRecord).2.1
      (by norm_num [netTurns, turnForm, baseForm, safe_float]),
   (claim2_weight_per_turn 1 "Admin" baseForm baseRecord).2.2.2
      (by norm_num [netTurns, baseForm, safe_float])
      (by norm_num [decExact, baseRecord])⟩

/-! ### Claim C3 -/

/-- Corners `(480, 500, 520, 500)` (rear percentage `51`), no turns, and
3 lb of fuel entered in pounds. -/
def fuelForm : SubmitForm :=
  { baseForm with
    lf := FormVal.num 480, rf := FormVal.num 500
    lr := FormVal.num 520, rr := FormVal.num 500
    fuel_input := FormVal.num 3 }

/-- Counterexample to C3 as stated: with `netTurns = 0`, a rear-percentage
change of `1` and `fuelLbs = 3`, the stored `fuel_sensitivity` is
`round(1/3, 5) = 0.33333`, not the exact quotient `1/3` the claim
demands. -/
theorem claim3_counterexample :
    (submitRecord 1 "Admin" fuelForm (some baseRecord)).fuel_sensitivity ≠
      ((submitRecord 1 "Admin" fuelForm (some baseRecord)).rear_pct -
        baseRecord.rear_pct) /
        (submitRecord 1 "Admin" fuelForm (some baseRecord)).fuel_lbs := by
  simp [submitRecord, fuelForm, baseForm, baseRecord, netTurns, safe_float,
    cornerTotal, rawFuelLbs, FUEL_DENSITY]
  norm_num [pyRound, rhe]

/-- Claim C3 (amended): with no previous record the stored
`fuel_sensitivity` is `0.0`; with a previous record, if `fuelLbs > 0.5` and
`netTurns = 0` (where `fuelLbs` is the converted fuel value before its
1-decimal storage rounding) the stored `fuel_sensitivity` is
`round((rearPct - previous.rearPct) / fuelLbs, 5)` (the quotient is rounded
to 5 decimals on storage); otherwise — in particular whenever
`netTurns ≠ 0`, regardless of `fuelLbs` — it is
`round(previous.fuel_sensitivity, 5)`, which equals
`previous.fuel_sensitivity` exactly whenever that value is exact at 5
decimals — as every `fuel_sensitivity` the app itself stores is. -/
theorem claim3_fuel_sensitivity (now : ℤ) (user : String) (form : SubmitForm)
    (prev : SetupRecord) :
    (submitRecord now user form none).fuel_sensitivity = 0 ∧
    (1/2 < rawFuelLbs form → netTurns form = 0 →
      (submitRecord now user form (some prev)).fuel_sensitivity =
        pyRound 5 (((submitRecord now user form (some prev)).rear_pct -
          prev.rear_pct) / rawFuelLbs form)) ∧
    (¬(1/2 < rawFuelLbs form ∧ netTurns form = 0) →
      (submitRecord now user form (some prev)).fuel_sensitivity =
        pyRound 5 prev.fuel_sensitivity) ∧
    (¬(1/2 < rawFuelLbs form ∧ netTurns form = 0) →
      decExact 5 prev.fuel_sensitivity →
      (submitRecord now user form (some prev)).fuel_sensitivity =
        prev.fuel_sensitivity) := by
  refine ⟨?_, ?_, ?_, ?_⟩
  · unfold submitRecord
    dsimp only
    exact pyRound_zero 5
  · intro h1 h2
    unfold submitRecord
    dsimp only
    rw [if_pos ⟨h1, h2⟩]
  · intro h
    unfold submitRecord
    dsimp only
    rw [if_neg h]
  · intro h hx
    unfold submitRecord
    dsimp only
    rw [if_neg h]
    exact pyRound_eq_self hx

/-- Witness for C3 (amended): at `fuelForm` the quotient branch applies, and
at `turnForm` (`netTurns = 3 ≠ 0`) the previous `fuel_sensitivity = 0` is
carried forward exactly. -/
theorem claim3_witness :
    (submitRecord 1 "Admin" fuelForm (some baseRecord)).fuel_sensitivity =
      pyRound 5 (((submitRecord 1 "Admin" fuelForm (some baseRecord)).rear_pct -
        baseRecord.rear_pct) / rawFuelLbs fuelForm) ∧
    (submitRecord 1 "Admin" turnForm (some baseRecord)).fuel_sensitivity =
      baseRecord.fuel_sensitivity :=
  ⟨(claim3_fuel_sensitivity 1 "Admin" fuelForm baseRecord).2.1
      (by simp [rawFuelLbs, fuelForm, baseForm, safe_float]; norm_num)
      (by norm_num [netTurns, fuelForm, baseForm, safe_float]),
   (claim3_fuel_sensitivity 1 "Admin" turnForm baseRecord).2.2.2
      (by simp [rawFuelLbs, netTurns, turnForm, baseForm, safe_float])
      (by norm_num [decExact, baseRecord])⟩

/-! ### Claim C4 -/

/-- Claim C4: for every submission whose four parsed corner weights are all
nonnegative with positive total, each stored percentage — cross, left and
rear — lies in `[0, 100]`. -/
theorem claim4_percentage_bounds (now : ℤ) (user : String) (form : SubmitForm)
    (prev : Option SetupRecord)
    (hlf : 0 ≤ safe_float form.lf) (hrf : 0 ≤ safe_float form.rf)
    (hlr : 0 ≤ safe_float form.lr) (hrr : 0 ≤ safe_float form.rr)
    (ht : 0 < cornerTotal form) :
    (0 ≤ (submitRecord now user form prev).cross_pct ∧
      (submitRecord now user form prev).cross_pct ≤ 100) ∧
    (0 ≤ (submitRecord now user form prev).left_pct ∧
      (submitRecord now user form prev).left_pct ≤ 100) ∧
    (0 ≤ (submitRecord now user form prev).rear_pct ∧
      (submitRecord now user form prev).rear_pct ≤ 100) := by
  have hne : cornerTotal form ≠ 0 := ne_of_gt ht
  have htot : cornerTotal form =
      safe_float form.lf + safe_float form.rf + safe_float form.lr +
        safe_float form.rr := rfl
  unfold submitRecord
  dsimp only
  rw [if_pos ht, if_pos hne, if_pos hne]
  exact ⟨pct_bounds _ _ (by linarith) ht (by rw [htot]; linarith),
    pct_bounds _ _ (by linarith) ht (by rw [htot]; linarith),
    pct_bounds _ _ (by linarith) ht (by rw [htot]; linarith)⟩

/-- Witness for C4 at corners `(500, 500, 500, 500)`. -/
theorem claim4_witness :
    (0 ≤ (submitRecord 0 "Admin" fullForm none).cross_pct ∧
      (submitRecord 0 "Admin" fullForm none).cross_pct ≤ 100) ∧
    (0 ≤ (submitRecord 0 "Admin" fullForm none).left_pct ∧
      (submitRecord 0 "Admin" fullForm none).left_pct ≤ 100) ∧
    (0 ≤ (submitRecord 0 "Admin" fullForm none).rear_pct ∧
      (submitRecord 0 "Admin" fullForm none).rear_pct ≤ 100) :=
  claim4_percentage_bounds 0 "Admin" fullForm none
    (by norm_num [fullForm, baseForm, safe_float])
    (by norm_num [fullForm, baseForm, safe_float])
    (by norm_num [fullForm, baseForm, safe_float])
    (by norm_num [fullForm, baseForm, safe_float])
    (by norm_num [cornerTotal, fullForm, baseForm, safe_float])

/-! ### Claim C5 -/

/-- Counterexample to C5 as stated: a negative corner-weight field is not
coerced to `0.0` — `safe_float` parses it as is, and the submitted record
stores the negative weight. -/
theorem claim5_counterexample :
    safe_float (FormVal.num (-5)) ≠ 0 ∧
    (submitRecord 0 "Admin" { baseForm with lf := FormVal.num (-5) } none).lf = -5 := by
  constructor
  · norm_num [safe_float]
  · norm_num [submitRecord, safe_float]

/-- Claim C5 (amended): a corner-weight field that is empty or unparseable
as a number is silently coerced to `0.0`; a field that parses — negative
values included — is stored as parsed.  No submission is rejected:
`submitRecord` is total and stores exactly `safe_float` of each corner
field. -/
theorem claim5_coercion (v : FormVal) (now : ℤ) (user : String)
    (form : SubmitForm) (prev : Option SetupRecord) :
    (v = FormVal.empty ∨ v = FormVal.garbled → safe_float v = 0) ∧
    (∀ q : ℚ, v = FormVal.num q → safe_float v = q) ∧
    (submitRecord now user form prev).lf = safe_float form.lf ∧
    (submitRecord now user form prev).rf = safe_float form.rf ∧
    (submitRecord now user form prev).lr = safe_float form.lr ∧
    (submitRecord now user form prev).rr = safe_float form.rr := by
  refine ⟨?_, ?_, rfl, rfl, rfl, rfl⟩
  · rintro (rfl | rfl) <;> rfl
  · rintro q rfl
    rfl

/-- Witness for C5 (amended): empty and garbled fields read as `0`, and the
stored left-front weight is the parsed field. -/
theorem claim5_witness :
    safe_float FormVal.empty = 0 ∧ safe_float FormVal.garbled = 0 ∧
    (submitRecord 0 "Admin" baseForm none).lf = safe_float baseForm.lf :=
  ⟨(claim5_coercion FormVal.empty 0 "Admin" baseForm none).1 (Or.inl rfl),
   (claim5_coercion FormVal.garbled 0 "Admin" baseForm none).1 (Or.inr rfl),
   (claim5_coercion FormVal.empty 0 "Admin" baseForm none).2.2.1⟩

/-! ### Claim C6 -/

/-- Claim C6: the stored `fuel_lbs` is the raw fuel value times `6.2` when
the unit is `"gal"` and the raw value as-is otherwise (in particular for
`"lbs"`), rounded to 1 decimal; and 10 gallons store as exactly `62.0`. -/
theorem claim6_fuel (now : ℤ) (user : String) (form : SubmitForm)
    (prev : Option SetupRecord) :
    (submitRecord now user form prev).fuel_lbs =
      pyRound 1 (if form.fuel_unit = "gal"
        then safe_float form.fuel_input * (6.2 : ℚ)
        else safe_float form.fuel_input) ∧
    (form.fuel_unit = "gal" → safe_float form.fuel_input = 10 →
      (submitRecord now user form prev).fuel_lbs = 62) := by
  have hproj : (submitRecord now user form prev).fuel_lbs =
      pyRound 1 (rawFuelLbs form) := rfl
  constructor
  · rw [hproj]
    unfold rawFuelLbs FUEL_DENSITY
    split
    · norm_num
    · rw [mul_one]
  · intro hg hf
    rw [hproj]
    unfold rawFuelLbs
    rw [if_pos hg, hf]
    have h62 : (10 : ℚ) * FUEL_DENSITY = 62 := by norm_num [FUEL_DENSITY]
    rw [h62]
    exact pyRound_eq_self (by norm_num [decExact])

/-- Ten gallons of fuel, entered in gallons. -/
def galForm : SubmitForm :=
  { baseForm with fuel_input := FormVal.num 10, fuel_unit := "gal" }

/-- Witness for C6: `fuel_unit = "gal"`, `fuel_input = 10` stores
`fuel_lbs = 62`. -/
theorem claim6_witness :
    (submitRecord 0 "Admin" galForm none).fuel_lbs = 62 :=
  (claim6_fuel 0 "Admin" galForm none).2 rfl
    (by norm_num [galForm, baseForm, safe_float])

/-! ### Claim C7 -/

/-- Claim C7: an update recomputes only the raw inputs, the total and the
three percentages (plus fuel, notes, sway-bar state and the baseline flag);
the record's `wt_per_turn` and `fuel_sensitivity`, as well as its `date`,
`created_by` and `(car_num, scale_num)` identity, are left exactly
unchanged. -/
theorem claim7_update_frame (form : SubmitForm) (r : SetupRecord) :
    (applyUpdate form r).wt_per_turn = r.wt_per_turn ∧
    (applyUpdate form r).fuel_sensitivity = r.fuel_sensitivity ∧
    (applyUpdate form r).date = r.date ∧
    (applyUpdate form r).created_by = r.created_by ∧
    (applyUpdate form r).car_num = r.car_num ∧
    (applyUpdate form r).scale_num = r.scale_num ∧
    (applyUpdate form r).lf = safe_float form.lf ∧
    (applyUpdate form r).rf = safe_float form.rf ∧
    (applyUpdate form r).lr = safe_float form.lr ∧
    (applyUpdate form r).rr = safe_float form.rr ∧
    (applyUpdate form r).total = cornerTotal form ∧
    (applyUpdate form r).fuel_lbs = pyRound 1 (rawFuelLbs form) ∧
    (applyUpdate form r).adjustment_notes = form.adjustment_notes ∧
    (applyUpdate form r).sway_bar = form.sway_bar ∧
    (applyUpdate form r).is_baseline = form.is_baseline :=
  ⟨rfl, rfl, rfl, rfl, rfl, rfl, rfl, rfl, rfl, rfl, rfl, rfl, rfl, rfl, rfl⟩

/-! ### Claim C8 -/

theorem latestOf_spec (rs : List SetupRecord) :
    ∀ a : SetupRecord,
      (latestOf a rs = a ∨ latestOf a rs ∈ rs) ∧
      a.date ≤ (latestOf a rs).date ∧
      ∀ x ∈ rs, x.date ≤ (latestOf a rs).date := by
  induction rs with
  | nil =>
    intro a
    exact ⟨Or.inl rfl, le_refl _, by simp⟩
  | cons x t ih =>
    intro a
    have hstep : latestOf a (x :: t) =
        latestOf (if a.date ≤ x.date then x else a) t := rfl
    by_cases h : a.date ≤ x.date
    · rw [hstep, if_pos h]
      obtain ⟨hmem, hd, hall⟩ := ih x
      refine ⟨?_, le_trans h hd, ?_⟩
      · rcases hmem with h1 | h1
        · exact Or.inr (by rw [h1]; exact List.mem_cons_self x t)
        · exact Or.inr (List.mem_cons_of_mem _ h1)
      · intro y hy
        rcases List.mem_cons.mp hy with rfl | hy
        · exact hd
        · exact hall y hy
    · rw [hstep, if_neg h]
      obtain ⟨hmem, hd, hall⟩ := ih a
      refine ⟨?_, hd, ?_⟩
      · rcases hmem with h1 | h1
        · exact Or.inl h1
        · exact Or.inr (List.mem_cons_of_mem _ h1)
      · intro y hy
        rcases List.mem_cons.mp hy with rfl | hy
        · exact le_trans (le_of_lt (lt_of_not_le h)) hd
        · exact hall y hy

theorem le_foldl_max (rs : List SetupRecord) (init : ℤ) :
    init ≤ rs.foldl (fun m x => max m x.scale_num) init := by
  induction rs generalizing init with
  | nil => exact le_refl _
  | cons x t ih => exact le_trans (le_max_left _ _) (ih (max init x.scale_num))

theorem mem_le_foldl_max (rs : List SetupRecord) :
    ∀ (init : ℤ) (x : SetupRecord), x ∈ rs →
      x.scale_num ≤ rs.foldl (fun m y => max m y.scale_num) init := by
  induction rs with
  | nil =>
    intro init x hx
    cases hx
  | cons y t ih =>
    intro init x hx
    rcases List.mem_cons.mp hx with rfl | h
    · exact le_trans (le_max_right _ _) (le_foldl_max t _)
    · exact ih _ x h

theorem foldl_max_le (rs : List SetupRecord) :
    ∀ init M : ℤ, init ≤ M → (∀ x ∈ rs, x.scale_num ≤ M) →
      rs.foldl (fun m y => max m y.scale_num) init ≤ M := by
  induction rs with
  | nil =>
    intro init M h _
    exact h
  | cons y t ih =>
    intro init M h hall
    exact ih _ M (max_le h (hall y (List.mem_cons_self y t)))
      (fun x hx => hall x (List.mem_cons_of_mem _ hx))

/-- An earlier record with sequence 5 and a later one with sequence 2 for
the same car: the offered next number follows the later record, not the
maximum. -/
def earlyRecord : SetupRecord := { baseRecord with date := 0, scale_num := 5 }

/-- See `earlyRecord`. -/
def lateRecord : SetupRecord := { baseRecord with date := 1, scale_num := 2 }

/-- Counterexample to C8 as stated: with records (date 0, sequence 5) and
(date 1, sequence 2), `index` offers `2 + 1 = 3` — the latest record's
sequence plus one — while the claimed `max + 1` is `6`. -/
theorem claim8_counterexample :
    nextNum [earlyRecord, lateRecord] "1" = 3 ∧
    specNextNum [earlyRecord, lateRecord] "1" = 6 ∧
    nextNum [earlyRecord, lateRecord] "1" ≠
      specNextNum [earlyRecord, lateRecord] "1" := by
  refine ⟨?_, ?_, ?_⟩ <;>
    simp [nextNum, specNextNum, carHistory, lastRunByDate, latestOf,
      earlyRecord, lateRecord, baseRecord]

/-- Claim C8 (amended): `index` offers, as the next sequence number, the
sequence number of the car's most recent record by date plus one (`1` when
the car has no records).  This equals `max(sequenceNumber) + 1` — the
claimed value — whenever sequence numbers are nondecreasing in date order
across the car's records, as they are when the app assigns them itself; a
later-dated record carrying a smaller explicit sequence number breaks the
equality. -/
theorem claim8_next_sequence (store : List SetupRecord) (car : String)
    (hmono : ∀ a ∈ carHistory store car, ∀ b ∈ carHistory store car,
      a.date ≤ b.date → a.scale_num ≤ b.scale_num) :
    nextNum store car = specNextNum store car := by
  unfold nextNum specNextNum
  cases hrs : carHistory store car with
  | nil => rfl
  | cons r0 t =>
    rw [hrs] at hmono
    unfold lastRunByDate
    dsimp only
    obtain ⟨hmem, hd, hall⟩ := latestOf_spec t r0
    have hLmem : latestOf r0 t ∈ r0 :: t := by
      rcases hmem with h1 | h1
      · rw [h1]
        exact List.mem_cons_self r0 t
      · exact List.mem_cons_of_mem _ h1
    have hub : ∀ x ∈ r0 :: t, x.scale_num ≤ (latestOf r0 t).scale_num := by
      intro x hx
      apply hmono x hx _ hLmem
      rcases List.mem_cons.mp hx with rfl | hx
      · exact hd
      · exact hall x hx
    have h1 : t.foldl (fun m x => max m x.scale_num) r0.scale_num ≤
        (latestOf r0 t).scale_num :=
      foldl_max_le t _ _ (hub r0 (List.mem_cons_self r0 t))
        (fun x hx => hub x (List.mem_cons_of_mem _ hx))
    have h2 : (latestOf r0 t).scale_num ≤
        t.foldl (fun m x => max m x.scale_num) r0.scale_num := by
      rcases hmem with hm | hm
      · rw [hm]
        exact le_foldl_max t _
      · exact mem_le_foldl_max t _ _ hm
    omega

/-- Witness for C8 (amended) on a one-record store. -/
theorem claim8_witness :
    nextNum [baseRecord] "1" = specNextNum [baseRecord] "1" ∧
    nextNum [baseRecord] "1" = 2 := by
  constructor
  · exact claim8_next_sequence [baseRecord] "1" (by
      intro a ha b hb hab
      simp [carHistory, baseRecord] at ha hb
      rw [ha, hb])
  · simp [nextNum, carHistory, lastRunByDate, latestOf, baseRecord]

/-! ### Claim C9 -/

/-- Counterexample to C9 as stated: `submit` performs no uniqueness check,
so submitting an explicit sequence number already present for the car
(here: car "1", sequence 1, twice) produces two records sharing the
`(car_num, scale_num)` key. -/
theorem claim9_counterexample :
    uniqueKeys [baseRecord] ∧
    ¬ uniqueKeys (submitOp 1 "Admin" baseForm [baseRecord]) := by
  constructor
  · unfold uniqueKeys
    simp
  · intro hp
    unfold uniqueKeys submitOp at hp
    have hrel := (List.pairwise_append.mp hp).2.2 baseRecord
      (List.mem_cons_self _ _) _ (List.mem_cons_self _ _)
    exact hrel rfl rfl

/-- Claim C9 (amended): deletion and update always preserve uniqueness of
`(car_num, scale_num)` within the store, and submission preserves it
provided the submitted key is not already present for the car; a submission
reusing an existing sequence number violates it (the table has no
uniqueness constraint). -/
theorem claim9_uniqueness (store : List SetupRecord) (now : ℤ) (user : String)
    (form : SubmitForm) (car : String) (scale : ℤ)
    (h : uniqueKeys store) :
    uniqueKeys (deleteOp car scale store) ∧
    uniqueKeys (updateOp form store) ∧
    ((∀ r ∈ store, r.car_num = form.car_num → r.scale_num ≠ form.scale_num) →
      uniqueKeys (submitOp now user form store)) := by
  refine ⟨?_, ?_, ?_⟩
  · exact List.Pairwise.sublist (List.filter_sublist _) h
  · unfold updateOp uniqueKeys
    rw [List.pairwise_map]
    apply List.Pairwise.imp _ h
    intro a b hab
    have ka : ∀ r : SetupRecord,
        (if r.car_num = form.car_num ∧ r.scale_num = form.scale_num then
          applyUpdate form r else r).car_num = r.car_num := by
      intro r
      split <;> rfl
    have ks : ∀ r : SetupRecord,
        (if r.car_num = form.car_num ∧ r.scale_num = form.scale_num then
          applyUpdate form r else r).scale_num = r.scale_num := by
      intro r
      split <;> rfl
    rw [ka, ka, ks, ks]
    exact hab
  · intro hfresh
    unfold submitOp uniqueKeys
    rw [List.pairwise_append]
    refine ⟨h, by simp, ?_⟩
    intro a ha b hb
    rw [List.mem_singleton] at hb
    subst hb
    intro hcar
    exact hfresh a ha hcar

/-- A form targeting car "1" with the fresh sequence number 2. -/
def freshForm : SubmitForm := { baseForm with scale_num := 2 }

/-- Witness for C9 (amended) on a one-record store with a fresh sequence
number. -/
theorem claim9_witness :
    uniqueKeys (deleteOp "1" 1 [baseRecord]) ∧
    uniqueKeys (updateOp freshForm [baseRecord]) ∧
    uniqueKeys (submitOp 1 "Admin" freshForm [baseRecord]) :=
  have h9 := claim9_uniqueness [baseRecord] 1 "Admin" freshForm "1" 1
    (by unfold uniqueKeys; simp)
  ⟨h9.1, h9.2.1, h9.2.2 (by
    intro r hr hcar
    simp only [List.mem_singleton] at hr
    rw [hr]
    norm_num [baseRecord, freshForm, baseForm])⟩

/-! ### Claim C10 -/

/-- Claim C10: the CSV backup is written only by submission, which appends
exactly the one freshly computed row; update and delete change only the
relational store and leave the CSV contents exactly unchanged, so a row
present in the CSV before an update or delete is still there afterwards. -/
theorem claim10_csv_backup (now : ℤ) (user : String) (form : SubmitForm)
    (car : String) (scale : ℤ) (s : AppState) :
    (submitState now user form s).csv =
      s.csv ++ [submitRecord now user form
        (lastRunByDate (carHistory s.db form.car_num))] ∧
    (deleteState car scale s).csv = s.csv ∧
    (updateState form s).csv = s.csv ∧
    (submitState now user form s).db =
      s.db ++ [submitRecord now user form
        (lastRunByDate (carHistory s.db form.car_num))] ∧
    (deleteState car scale s).db = deleteOp car scale s.db ∧
    (updateState form s).db = updateOp form s.db :=
  ⟨rfl, rfl, rfl, rfl, rfl, rfl⟩

end RaceApp
